import Mathlib

/-!
Verification of the ezpass password manager (src/src/password_db.py and
src/src/ezpass.py) against its natural-language specification.

The SQLite `passwords` table is embedded as a list of rows keyed by a
UNIQUE title.  The Fernet cipher and PBKDF2 key derivation come from the
`cryptography` library, which is not part of this repository; they are
modelled from the spec (sections 4.1 and 4.3) as an ideal deterministic
KDF and an ideal authenticated-encryption scheme whose tokens carry an
unforgeable MAC over (key, nonce, body).  Wall-clock times (`time.time()`)
are modelled as rationals.
-/

namespace EzPass

/-- Modelled from the spec: a MasterKey, the output of
`PasswordDatabase._derive_key` (PBKDF2HMAC-SHA256, 310000 iterations, from
the external `cryptography` library).  The KDF is ideal: the key is an
injective function of passphrase bytes and salt bytes, so distinct
(passphrase, salt) pairs give distinct keys. -/
structure MasterKey where
  passBytes : List Nat
  saltBytes : List Nat
  deriving DecidableEq, Repr

/-- Byte encoding of a Python string (`.encode()`), one code point per cell. -/
def strBytes (s : String) : List Nat :=
  s.data.map Char.toNat

/-- Modelled from the spec: `PasswordDatabase._derive_key` — deterministic
derivation of the symmetric key from the master password and the persisted
salt (src/src/password_db.py lines 141-167). -/
def deriveKey (password : String) (salt : List Nat) : MasterKey :=
  ⟨strBytes password, salt⟩

/-- Modelled from the spec: the authentication tag a Fernet token carries.
Ideal MAC: the tag determines (and is determined by) the key, the nonce and
the body, so it can be checked but not forged. -/
structure MacTag where
  key : MasterKey
  nonce : Nat
  body : String
  deriving DecidableEq, Repr

/-- Modelled from the spec: a Fernet token as produced by
`encryption_key.encrypt` — a fresh nonce, the (opaquely carried) plaintext
body, and an authentication tag over key, nonce and body. -/
structure FernetToken where
  nonce : Nat
  body : String
  tag : MacTag
  deriving DecidableEq, Repr

/-- Modelled from the spec: the MAC computation of the ideal cipher. -/
def hmacTag (k : MasterKey) (nonce : Nat) (body : String) : MacTag :=
  ⟨k, nonce, body⟩

/-- Modelled from the spec: `seal` — `Fernet.encrypt` with an explicit
nonce argument standing for the fresh per-call randomness. -/
def fernetEncrypt (k : MasterKey) (nonce : Nat) (plain : String) : FernetToken :=
  ⟨nonce, plain, hmacTag k nonce plain⟩

/-- Modelled from the spec: `open` — `Fernet.decrypt`: verify the tag
against the presented key, nonce and body; return the body on success and
fail (InvalidToken / DecryptionError) otherwise. -/
def fernetDecrypt (k : MasterKey) (t : FernetToken) : Option String :=
  if t.tag = hmacTag k t.nonce t.body then some t.body else none

/-- A single-bit flip in the serialized token lands in exactly one of the
three regions of the token (nonce/IV bytes, ciphertext body, HMAC tag), so
a single-bit mutation is a token agreeing with the original on two fields
and differing on the third. -/
def IsSingleFieldMutation (t' t : FernetToken) : Prop :=
  (t'.nonce ≠ t.nonce ∧ t'.body = t.body ∧ t'.tag = t.tag) ∨
  (t'.nonce = t.nonce ∧ t'.body ≠ t.body ∧ t'.tag = t.tag) ∨
  (t'.nonce = t.nonce ∧ t'.body = t.body ∧ t'.tag ≠ t.tag)

instance (t' t : FernetToken) : Decidable (IsSingleFieldMutation t' t) := by
  unfold IsSingleFieldMutation; infer_instance

/-- One row of the SQLite `passwords` table (id and the two timestamps are
not observed by any claim; `title` is UNIQUE, `password` holds the
Fernet token produced at insert/update time). -/
structure Row where
  title : String
  password : FernetToken
  deriving DecidableEq, Repr

/-- The `passwords` table: rows in insertion order. -/
abbrev Store := List Row

/-- Titles of the stored rows, in table order. -/
def storeTitles (store : Store) : List String :=
  store.map Row.title

/-- `PasswordDatabase.add_password` (src/src/password_db.py lines 200-230):
encrypt the password, then `INSERT ... ON CONFLICT(title) DO UPDATE SET
password = excluded.password`.  Returns the updated table and the Python
return value (`True`; `False` only on a sqlite error, which the embedding,
like the spec's storage model, does not produce). -/
def addPassword (k : MasterKey) (nonce : Nat) (store : Store)
    (title password : String) : Store × Bool :=
  let encryptedPassword := fernetEncrypt k nonce password
  if store.any (fun r => r.title = title) then
    (store.map (fun r => if r.title = title then ⟨r.title, encryptedPassword⟩ else r), true)
  else
    (store ++ [⟨title, encryptedPassword⟩], true)

/-- The three code paths of `PasswordDatabase.get_password`
(src/src/password_db.py lines 232-262): row found and decrypted; no row
(`return None` at line 254); decryption raised and was caught by the
`except Exception` handler at line 258 (which prints and returns None). -/
inductive GetOutcome where
  | found (plain : String)
  | absent
  | decryptError
  deriving DecidableEq, Repr

/-- Which path `get_password` takes: `SELECT password FROM passwords WHERE
title = ?` (first matching row), then Fernet decryption of the stored
token.  `key = none` models the state after `clear_session` has set
`db.encryption_key = None`: the attribute access raises, and the raise is
caught by the same `except Exception` handler. -/
def getPasswordOutcome (key : Option MasterKey) (store : Store)
    (title : String) : GetOutcome :=
  match store.find? (fun r => r.title = title) with
  | none => .absent
  | some r =>
    match key with
    | none => .decryptError
    | some k =>
      match fernetDecrypt k r.password with
      | some plain => .found plain
      | none => .decryptError

/-- The value `get_password` actually returns to its caller: the decrypted
password, or `None` both when no row matches and when decryption fails
(the handler prints the error and returns None). -/
def getPassword (key : Option MasterKey) (store : Store) (title : String) :
    Option String :=
  match getPasswordOutcome key store title with
  | .found plain => some plain
  | .absent => none
  | .decryptError => none

/-- `PasswordDatabase.list_passwords` (lines 264-281): `SELECT title FROM
passwords ORDER BY title`. -/
def listPasswords (store : Store) : List String :=
  (storeTitles store).insertionSort (· ≤ ·)

/-- `PasswordDatabase.delete_password` (lines 283-304): `DELETE FROM
passwords WHERE title = ?`, returning the new table and `cursor.rowcount >
0`. -/
def deletePassword (store : Store) (title : String) : Store × Bool :=
  (store.filter (fun r => ¬ r.title = title),
   store.any (fun r => r.title = title))

/-- Contents of the `.attempts` file: `{"count": ..., "last_attempt": ...}`.
Timestamps (`time.time()`) are modelled as rationals. -/
structure AttemptsData where
  count : Nat
  lastAttempt : ℚ
  deriving DecidableEq, Repr

/-- The default used when the attempts file is absent or corrupted
(src/src/password_db.py line 106). -/
def defaultAttempts : AttemptsData := ⟨0, 0⟩

/-- What `_get_master_password` does on the existing-vault path before
returning the typed passphrase: how long it sleeps, and the attempts
record it writes back. -/
structure PromptResult where
  delay : ℚ
  written : AttemptsData
  deriving DecidableEq, Repr

/-- `PasswordDatabase._get_master_password`, existing-vault branch
(src/src/password_db.py lines 102-134): load the attempts file (absent or
corrupt reads as the default), sleep `max 0 (5 - (now - last_attempt))`
seconds when `count >= 3`, prompt for the passphrase after the sleep, then
persist `count + 1` and `last_attempt = now`. -/
def getMasterPasswordExisting (stored : Option AttemptsData) (now : ℚ) :
    PromptResult :=
  let a := stored.getD defaultAttempts
  let delay := if 3 ≤ a.count then max 0 (5 - (now - a.lastAttempt)) else 0
  ⟨delay, ⟨a.count + 1, now⟩⟩

/-- Outcome of constructing `PasswordDatabase` on an existing vault: the
sleep incurred, the attempts record left on disk, and the derived key
(`none` when `__init__` re-raised). -/
structure UnlockResult where
  delay : ℚ
  attempts : AttemptsData
  key : Option MasterKey
  deriving DecidableEq, Repr

/-- `PasswordDatabase.__init__` on an existing vault with an interactive
prompt (src/src/password_db.py lines 48-70): run
`getMasterPasswordExisting`, derive the key and initialize the database —
steps that read no verifier and so cannot fail on a wrong passphrase; the
flag `ioOk` models the only possible failure, an I/O or sqlite exception
independent of the passphrase.  On success the attempts file is rewritten
as `{"count": 0, "last_attempt": later}`; on failure the except-branch
increments the just-written count once more and leaves `last_attempt` as
written by the prompt. -/
def unlockExisting (stored : Option AttemptsData) (now later : ℚ)
    (password : String) (salt : List Nat) (ioOk : Bool) : UnlockResult :=
  let pr := getMasterPasswordExisting stored now
  if ioOk then
    ⟨pr.delay, ⟨0, later⟩, some (deriveKey password salt)⟩
  else
    ⟨pr.delay, ⟨pr.written.count + 1, pr.written.lastAttempt⟩, none⟩

/-- The fields of a live `PasswordDatabase` object that operations read:
`master_password`, `encryption_key` and the backing table. -/
structure DbState where
  masterPassword : Option String
  encryptionKey : Option MasterKey
  store : Store
  deriving DecidableEq, Repr

/-- `clear_session` (src/src/ezpass.py lines 17-32): sets
`db.master_password = None` and `db.encryption_key = None`.  (Its final
`sys.exit(0)` runs on the daemon timer thread and only ends that thread,
so the object stays usable by the main thread in this state.) -/
def clearSession (st : DbState) : DbState :=
  ⟨none, none, st.store⟩

/-- `get_password` as invoked on a live object: uses whatever
`encryption_key` currently holds. -/
def dbGetPassword (st : DbState) (title : String) : Option String :=
  getPassword st.encryptionKey st.store title

/-- `add_password` on a live object.  When `encryption_key` is `None` the
very first line `self.encryption_key.encrypt(...)` (line 209) raises an
AttributeError outside any try-block, modelled as `none`; otherwise the
table is updated and `True` returned. -/
def dbAddPassword (st : DbState) (nonce : Nat) (title password : String) :
    Option (DbState × Bool) :=
  match st.encryptionKey with
  | none => none
  | some k =>
    let r := addPassword k nonce st.store title password
    some (⟨st.masterPassword, st.encryptionKey, r.1⟩, r.2)

/-- `list_passwords` on a live object: never touches the key. -/
def dbListPasswords (st : DbState) : List String :=
  listPasswords st.store

/-- `delete_password` on a live object: never touches the key. -/
def dbDeletePassword (st : DbState) (title : String) : DbState × Bool :=
  let r := deletePassword st.store title
  (⟨st.masterPassword, st.encryptionKey, r.1⟩, r.2)

/-- Characters rejected by the title validation in `ezpass.py` `main`
(lines 116-121, 163-169, 199-205): code points 39 (single quote), 34
(double quote), 59 (semicolon) and 92 (backslash). -/
def invalidTitleChar (c : Char) : Bool :=
  c.toNat = 39 || c.toNat = 34 || c.toNat = 59 || c.toNat = 92

/-- The CLI validation: nonempty and free of the four denylisted
characters (membership of a single character in a Python string equals
containment of that character). -/
def cliTitleOk (title : String) : Bool :=
  !(title.length = 0) && !(title.data.any invalidTitleChar)

/-- A CLI command either exits with the title-validation error before
touching the database, or runs the underlying operation. -/
inductive CliResult (α : Type) where
  | invalidTitle
  | ran (a : α)
  deriving DecidableEq, Repr

/-- The `-g TITLE` command of `ezpass.py` `main` (lines 113-121 then 134):
validate, then store the generated password. -/
def cliGenerate (st : DbState) (nonce : Nat) (title generated : String) :
    CliResult (Option (DbState × Bool)) :=
  if cliTitleOk title then .ran (dbAddPassword st nonce title generated)
  else .invalidTitle

/-- The `-c TITLE` command (lines 161-172): validate, then read. -/
def cliCopy (st : DbState) (title : String) : CliResult (Option String) :=
  if cliTitleOk title then .ran (dbGetPassword st title)
  else .invalidTitle

/-- The `-d TITLE` command (lines 197-210): validate, then delete. -/
def cliDelete (st : DbState) (title : String) : CliResult (DbState × Bool) :=
  if cliTitleOk title then .ran (dbDeletePassword st title)
  else .invalidTitle

/-- A fixed key for concrete witnesses: the key of the vault owner. -/
def K0 : MasterKey := deriveKey "Str0ng-Passw0rd123" [7, 7]

/-- A different fixed key, as derived from a wrong passphrase over the
same salt. -/
def K1 : MasterKey := deriveKey "wrong-guess" [7, 7]

end EzPass

namespace EzPass

/-- The claim sentence `open(seal(P, K), K) == P`, checked for the ideal
cipher model. -/
theorem fernetDecrypt_fernetEncrypt (k : MasterKey) (nonce : Nat) (p : String) :
    fernetDecrypt k (fernetEncrypt k nonce p) = some p := by
  simp [fernetDecrypt, fernetEncrypt]

/-- After an upsert of `title`, the first row matching `title` holds the
fresh token. -/
theorem find?_addPassword (k : MasterKey) (nonce : Nat) (store : Store)
    (title password : String) :
    ((addPassword k nonce store title password).1.find?
      (fun r => r.title = title)) = some ⟨title, fernetEncrypt k nonce password⟩ := by
  unfold addPassword
  by_cases hmem : store.any (fun r => r.title = title)
  · simp only [hmem, if_pos]
    induction store with
    | nil => simp at hmem
    | cons r rest ih =>
      by_cases hr : r.title = title
      · simp [List.find?, hr]
      · simp only [List.any_cons, hr] at hmem
        simp only [List.map_cons, if_neg hr, List.find?]
        rw [show ((r.title = title : Bool) = false) by simp [hr]]
        simp only [Bool.false_eq_true, if_false]
        exact ih (by simpa using hmem)
  · simp only [hmem, if_neg, Bool.false_eq_true, if_false]
    rw [List.find?_append]
    have hnone : store.find? (fun r => r.title = title) = none := by
      rw [List.find?_eq_none]
      intro x hx
      simp only [List.any_eq_true, not_exists, not_and] at hmem
      simpa using hmem x hx
    rw [hnone]
    simp [List.find?]

/-- Anything the ideal cipher opens is a genuine token sealed under that
key over the returned plaintext: decryption never yields corrupted data. -/
theorem fernetDecrypt_genuine (k : MasterKey) (t : FernetToken) (p : String)
    (h : fernetDecrypt k t = some p) : t = fernetEncrypt k t.nonce p := by
  obtain ⟨tn, tb, tt⟩ := t
  by_cases hc : tt = hmacTag k tn tb
  · simp only [fernetDecrypt, hc, if_pos] at h
    simp only [Option.some.injEq] at h
    subst h
    simp [fernetEncrypt, hc]
  · simp [fernetDecrypt, hc] at h

/-- Retrieval after an upsert of the same title yields the new secret. -/
theorem getPassword_addPassword (k : MasterKey) (nonce : Nat) (store : Store)
    (title p : String) :
    getPassword (some k) (addPassword k nonce store title p).1 title = some p := by
  simp [getPassword, getPasswordOutcome, find?_addPassword,
    fernetDecrypt_fernetEncrypt]

/-- C1: sealing then opening under the same key round-trips: on an
unlocked vault, `add_password(title, P)` followed by `get_password(title)`
returns exactly P, for every key derived by KeyDerivation, every prior
table state, and every nonce. -/
theorem C1_add_then_get_roundtrip (k : MasterKey) (nonce : Nat) (store : Store)
    (title P : String) :
    getPassword (some k) (addPassword k nonce store title P).1 title = some P :=
  getPassword_addPassword k nonce store title P

/-- C2: the authenticated cipher rejects tampering and wrong keys: a
single-bit mutation of a sealed token (landing in the nonce, body or tag
region) fails decryption under the sealing key; a token sealed under one
key fails decryption under any other key; and whatever decrypts
successfully is a genuine sealing of the returned plaintext, so corrupted
plaintext is never returned. -/
theorem C2_tamper_and_wrong_key_rejected :
    (∀ (k : MasterKey) (nonce : Nat) (p : String) (t : FernetToken),
        IsSingleFieldMutation t (fernetEncrypt k nonce p) →
        fernetDecrypt k t = none) ∧
    (∀ (k1 k2 : MasterKey) (nonce : Nat) (p : String), k1 ≠ k2 →
        fernetDecrypt k2 (fernetEncrypt k1 nonce p) = none) ∧
    (∀ (k : MasterKey) (t : FernetToken) (p : String),
        fernetDecrypt k t = some p → t = fernetEncrypt k t.nonce p) := by
  refine ⟨?_, ?_, fernetDecrypt_genuine⟩
  · rintro k nonce p ⟨tn, tb, tt⟩ (⟨h1, h2, h3⟩ | ⟨h1, h2, h3⟩ | ⟨h1, h2, h3⟩) <;>
      simp_all [fernetDecrypt, fernetEncrypt, hmacTag, MacTag.mk.injEq] <;>
      first
      | exact fun hx => h1 hx.symm
      | exact fun hx => h2 hx.symm
  · intro k1 k2 nonce p hne
    simp [fernetDecrypt, fernetEncrypt, hmacTag, MacTag.mk.injEq]
    exact hne

/-- Witness for C2 at concrete inputs: a nonce flip on a genuine token is
rejected, and decryption under a key derived from a different passphrase
is rejected. -/
theorem C2_tamper_and_wrong_key_rejected_witness :
    fernetDecrypt K0 ⟨1, "hunter2", hmacTag K0 0 "hunter2"⟩ = none ∧
    fernetDecrypt K1 (fernetEncrypt K0 0 "hunter2") = none :=
  ⟨C2_tamper_and_wrong_key_rejected.1 K0 0 "hunter2"
      ⟨1, "hunter2", hmacTag K0 0 "hunter2"⟩ (by decide),
   C2_tamper_and_wrong_key_rejected.2.1 K0 K1 0 "hunter2" (by decide)⟩

/-- C3: on an existing vault whose persisted state shows at least 3
failures with the last attempt under 5 seconds old, the attempt is not
rejected: the prompt still runs and records the attempt, but only after
a blocking sleep of positive length covering the full remaining portion
of the 5-second cooldown. -/
theorem C3_throttle_delays_by_remaining_cooldown (a : AttemptsData) (now : ℚ)
    (h3 : 3 ≤ a.count) (h5 : now - a.lastAttempt < 5) :
    0 < (getMasterPasswordExisting (some a) now).delay ∧
    5 - (now - a.lastAttempt) ≤ (getMasterPasswordExisting (some a) now).delay ∧
    (getMasterPasswordExisting (some a) now).written = ⟨a.count + 1, now⟩ := by
  unfold getMasterPasswordExisting
  simp only [Option.getD_some, h3, if_pos]
  refine ⟨?_, le_max_right _ _, trivial⟩
  have hy : 0 < 5 - (now - a.lastAttempt) := by linarith
  exact lt_of_lt_of_le hy (le_max_right _ _)

/-- Witness for C3: three prior failures two seconds ago delay the next
prompt by the remaining three seconds. -/
theorem C3_throttle_witness :
    0 < (getMasterPasswordExisting (some ⟨3, 0⟩) 2).delay ∧
    5 - ((2 : ℚ) - (AttemptsData.mk 3 0).lastAttempt) ≤
      (getMasterPasswordExisting (some ⟨3, 0⟩) 2).delay ∧
    (getMasterPasswordExisting (some ⟨3, 0⟩) 2).written =
      ⟨(AttemptsData.mk 3 0).count + 1, 2⟩ :=
  C3_throttle_delays_by_remaining_cooldown ⟨3, 0⟩ 2 (by norm_num) (by norm_num)

/-- C4: a successful unlock persists `{"count": 0, "last_attempt": later}`
— the throttle returns to Open — while a failed one leaves the timestamp
written at prompt time; in every case the attempt's timestamp was
persisted by the prompt step. -/
theorem C4_success_resets_count_attempts_update_timestamp
    (stored : Option AttemptsData) (now later : ℚ) (password : String)
    (salt : List Nat) :
    (unlockExisting stored now later password salt true).attempts = ⟨0, later⟩ ∧
    (unlockExisting stored now later password salt false).attempts.lastAttempt = now ∧
    (getMasterPasswordExisting stored now).written.lastAttempt = now :=
  ⟨rfl, rfl, rfl⟩

/-- C5: nothing in `__init__` validates the passphrase against stored
data: for every passphrase the construction succeeds (derivation plus
database initialization), yields the key derived from that passphrase, and
resets the failed counter to 0; the attempts record and sleep are the same
for any two passphrases. -/
theorem C5_construction_accepts_any_passphrase
    (stored : Option AttemptsData) (now later : ℚ) (p1 p2 : String)
    (salt : List Nat) :
    (unlockExisting stored now later p1 salt true).key =
      some (deriveKey p1 salt) ∧
    (unlockExisting stored now later p1 salt true).attempts = ⟨0, later⟩ ∧
    (unlockExisting stored now later p1 salt true).attempts =
      (unlockExisting stored now later p2 salt true).attempts ∧
    (unlockExisting stored now later p1 salt true).delay =
      (unlockExisting stored now later p2 salt true).delay :=
  ⟨rfl, rfl, rfl, rfl⟩

/-- C6 counterexample: the core operation `add_password` performs no title
validation: applied to the empty title (which the CLI would reject) it
succeeds and writes a row with that title into the table, rather than
rejecting it before touching storage. -/
theorem C6_core_accepts_invalid_title :
    cliTitleOk "" = false ∧
    (addPassword K0 0 [] "" "hunter2").2 = true ∧
    (addPassword K0 0 [] "" "hunter2").1 =
      [⟨"", fernetEncrypt K0 0 "hunter2"⟩] :=
  ⟨rfl, rfl, rfl⟩

/-- C6 amended: the title validation lives in the CLI layer, not in the
core: each of the generate, copy and delete commands rejects an empty
title, or one containing a quote, double quote, semicolon or backslash,
before any call into the database, while the `PasswordDatabase` methods
themselves accept any title. -/
theorem C6_cli_rejects_invalid_titles (st : DbState) (nonce : Nat)
    (title generated : String)
    (h : title.length = 0 ∨ ∃ c ∈ title.data, invalidTitleChar c = true) :
    cliGenerate st nonce title generated = .invalidTitle ∧
    cliCopy st title = .invalidTitle ∧
    cliDelete st title = .invalidTitle := by
  have hok : cliTitleOk title = false := by
    rcases h with h | ⟨c, hc, hic⟩
    · simp [cliTitleOk, h]
    · have hany : title.data.any invalidTitleChar = true :=
        List.any_eq_true.mpr ⟨c, hc, hic⟩
      simp [cliTitleOk, hany]
  exact ⟨by simp [cliGenerate, hok], by simp [cliCopy, hok],
    by simp [cliDelete, hok]⟩

/-- Witness for C6 amended: a semicolon title is turned away by all three
commands. -/
theorem C6_cli_rejects_invalid_titles_witness :
    cliGenerate ⟨none, some K0, []⟩ 0 ";" "x" = .invalidTitle ∧
    cliCopy ⟨none, some K0, []⟩ ";" = .invalidTitle ∧
    cliDelete ⟨none, some K0, []⟩ ";" = .invalidTitle :=
  C6_cli_rejects_invalid_titles ⟨none, some K0, []⟩ 0 ";" "x"
    (Or.inr ⟨';', by decide, by decide⟩)

/-- Upsert always reports success (`True`): the only `False` path is a
sqlite error, which the storage model does not produce. -/
theorem addPassword_snd (k : MasterKey) (nonce : Nat) (store : Store)
    (title p : String) : (addPassword k nonce store title p).2 = true := by
  unfold addPassword
  split <;> rfl

/-- Titles after an upsert: unchanged when the title was present, appended
otherwise. -/
theorem storeTitles_addPassword (k : MasterKey) (nonce : Nat) (store : Store)
    (title p : String) :
    storeTitles (addPassword k nonce store title p).1 =
      if store.any (fun r => r.title = title) then storeTitles store
      else storeTitles store ++ [title] := by
  unfold addPassword storeTitles
  by_cases hmem : store.any (fun r => r.title = title)
  · simp only [hmem, if_pos, List.map_map]
    apply List.map_congr_left
    intro r _
    by_cases h : r.title = title <;> simp [h]
  · simp [hmem]

/-- The upserted title is present afterwards. -/
theorem any_addPassword_self (k : MasterKey) (nonce : Nat) (store : Store)
    (title p : String) :
    ((addPassword k nonce store title p).1).any (fun r => r.title = title) = true := by
  have hf := find?_addPassword k nonce store title p
  have hmem := List.mem_of_find?_eq_some hf
  have hp := List.find?_some hf
  exact List.any_eq_true.mpr ⟨_, hmem, hp⟩

/-- `list_passwords` only reorders the stored titles, so multiplicities
are preserved. -/
theorem count_listPasswords (store : Store) (x : String) :
    (listPasswords store).count x = (storeTitles store).count x :=
  (List.perm_insertionSort _ _).count_eq x

/-- C7: upsert keeps titles unique: adding A then B under the same title
succeeds both times without error, a subsequent read returns B, and the
listing contains the title exactly once — provided the table satisfied the
UNIQUE constraint beforehand. -/
theorem C7_upsert_preserves_uniqueness (k : MasterKey) (n1 n2 : Nat)
    (store : Store) (x A B : String) (hnd : (storeTitles store).Nodup) :
    (addPassword k n1 store x A).2 = true ∧
    (addPassword k n2 (addPassword k n1 store x A).1 x B).2 = true ∧
    getPassword (some k)
      (addPassword k n2 (addPassword k n1 store x A).1 x B).1 x = some B ∧
    (listPasswords
      (addPassword k n2 (addPassword k n1 store x A).1 x B).1).count x = 1 := by
  refine ⟨addPassword_snd k n1 store x A, addPassword_snd k n2 _ x B,
    getPassword_addPassword k n2 _ x B, ?_⟩
  have h1 := any_addPassword_self k n1 store x A
  rw [count_listPasswords, storeTitles_addPassword, if_pos h1,
    storeTitles_addPassword]
  by_cases hmem : store.any (fun r => r.title = x)
  · rw [if_pos hmem]
    obtain ⟨r, hr, hp⟩ := List.any_eq_true.mp hmem
    have ht : r.title = x := by simpa using hp
    exact List.count_eq_one_of_mem hnd (ht ▸ List.mem_map_of_mem Row.title hr)
  · rw [if_neg hmem]
    have hx : x ∉ storeTitles store := by
      intro hmm
      obtain ⟨r, hr, ht⟩ := List.mem_map.mp hmm
      exact hmem (List.any_eq_true.mpr ⟨r, hr, by simp [ht]⟩)
    simp [List.count_append, List.count_eq_zero.mpr hx]

/-- Witness for C7 on the empty table. -/
theorem C7_upsert_preserves_uniqueness_witness :
    (addPassword K0 1 [] "x" "A").2 = true ∧
    (addPassword K0 2 (addPassword K0 1 [] "x" "A").1 "x" "B").2 = true ∧
    getPassword (some K0)
      (addPassword K0 2 (addPassword K0 1 [] "x" "A").1 "x" "B").1 "x" = some "B" ∧
    (listPasswords
      (addPassword K0 2 (addPassword K0 1 [] "x" "A").1 "x" "B").1).count "x" = 1 :=
  C7_upsert_preserves_uniqueness K0 1 2 [] "x" "A" "B" (by simp [storeTitles])

/-- A stored row whose token fails the integrity check under the vault key
`K0` (it was sealed under the different key `K1`). -/
def tamperedRow : Row := ⟨"email", ⟨0, "hunter2", hmacTag K1 0 "hunter2"⟩⟩

/-- C8 counterexample: when a stored token fails the integrity check,
`get_password` takes the decryption-error path but returns `None` — the
very value of the absent case — so the caller is handed nothing distinct
from absence. -/
theorem C8_decrypt_error_value_equals_absent_value :
    getPasswordOutcome (some K0) [tamperedRow] "email" = .decryptError ∧
    getPassword (some K0) [tamperedRow] "email" = none ∧
    getPasswordOutcome (some K0) [tamperedRow] "missing" = .absent ∧
    getPassword (some K0) [tamperedRow] "missing" = none :=
  ⟨rfl, rfl, rfl, rfl⟩

/-- C8 amended: `get_password` returns absent (`None`) when no row has
the title; when a row exists but its token fails the integrity check it
takes the separate decryption-error path (printing a diagnostic) yet
still returns `None`, the same value as the absent case; and any value it
does return is the genuine plaintext sealed in the stored token — never
corrupted data. -/
theorem C8_read_absent_and_decrypt_error (k : MasterKey) (store : Store)
    (title : String) :
    (store.find? (fun r => r.title = title) = none →
      getPasswordOutcome (some k) store title = .absent ∧
      getPassword (some k) store title = none) ∧
    (∀ row, store.find? (fun r => r.title = title) = some row →
      fernetDecrypt k row.password = none →
      getPasswordOutcome (some k) store title = .decryptError ∧
      getPassword (some k) store title = none) ∧
    (∀ p, getPassword (some k) store title = some p →
      ∃ row, store.find? (fun r => r.title = title) = some row ∧
        row.password = fernetEncrypt k row.password.nonce p) := by
  refine ⟨?_, ?_, ?_⟩
  · intro h
    simp [getPasswordOutcome, getPassword, h]
  · intro row h hd
    simp [getPasswordOutcome, getPassword, h, hd]
  · intro p hp
    cases hf : store.find? (fun r => r.title = title) with
    | none => simp [getPassword, getPasswordOutcome, hf] at hp
    | some row =>
      cases hd : fernetDecrypt k row.password with
      | none => simp [getPassword, getPasswordOutcome, hf, hd] at hp
      | some q =>
        have hqp : q = p := by
          simpa [getPassword, getPasswordOutcome, hf, hd] using hp
        subst hqp
        exact ⟨row, rfl, fernetDecrypt_genuine k row.password q hd⟩

/-- Witness for C8 amended, on the tampered row and on an absent title. -/
theorem C8_read_absent_and_decrypt_error_witness :
    (getPasswordOutcome (some K0) [tamperedRow] "email" = .decryptError ∧
      getPassword (some K0) [tamperedRow] "email" = none) ∧
    (getPasswordOutcome (some K0) [tamperedRow] "missing" = .absent ∧
      getPassword (some K0) [tamperedRow] "missing" = none) :=
  ⟨(C8_read_absent_and_decrypt_error K0 [tamperedRow] "email").2.1
      tamperedRow (by decide) (by decide),
   (C8_read_absent_and_decrypt_error K0 [tamperedRow] "missing").1 (by decide)⟩

/-- C9: `delete_password` returns `rowcount > 0`, i.e. whether a row with
the title existed: on an absent title it returns `False` and leaves the
table untouched; on a present title it returns `True` and the title is
gone afterwards. -/
theorem C9_delete_reports_existence (store : Store) (title : String) :
    ((deletePassword store title).2 = store.any (fun r => r.title = title)) ∧
    (title ∉ storeTitles store → deletePassword store title = (store, false)) ∧
    (title ∈ storeTitles store →
      (deletePassword store title).2 = true ∧
      title ∉ storeTitles (deletePassword store title).1) := by
  refine ⟨rfl, ?_, ?_⟩
  · intro h
    unfold deletePassword
    have h1 : store.filter (fun r => ¬ r.title = title) = store := by
      apply List.filter_eq_self.mpr
      intro a ha
      have hne : ¬ a.title = title :=
        fun hteq => h (hteq ▸ List.mem_map_of_mem Row.title ha)
      simp [hne]
    have h2 : store.any (fun r => r.title = title) = false := by
      rw [List.any_eq_false]
      intro a ha
      simp only [decide_eq_true_eq]
      intro hteq
      exact h (hteq ▸ List.mem_map_of_mem Row.title ha)
    rw [h1, h2]
  · intro h
    obtain ⟨r, hr, ht⟩ := List.mem_map.mp h
    constructor
    · exact List.any_eq_true.mpr ⟨r, hr, by simp [ht]⟩
    · intro hmm
      obtain ⟨r2, hr2, ht2⟩ := List.mem_map.mp hmm
      have hpred := List.of_mem_filter hr2
      simp only [decide_eq_true_eq] at hpred
      exact hpred ht2

/-- A concrete stored row for the delete witness. -/
def sampleRow : Row := ⟨"bank", fernetEncrypt K0 0 "p1"⟩

/-- Witness for C9: deleting from the empty table returns `False`
unchanged; deleting a stored title returns `True` and removes it. -/
theorem C9_delete_reports_existence_witness :
    deletePassword [] "bank" = ([], false) ∧
    ((deletePassword [sampleRow] "bank").2 = true ∧
      "bank" ∉ storeTitles (deletePassword [sampleRow] "bank").1) :=
  ⟨(C9_delete_reports_existence [] "bank").2.1 (by decide),
   (C9_delete_reports_existence [sampleRow] "bank").2.2 (by decide)⟩

/-- The session state after `clear_session` has scrubbed the key, with one
stored row. -/
def closedSt : DbState := clearSession ⟨some "mp", some K0, [sampleRow]⟩

/-- C10 counterexample: on a Closed vault (key scrubbed by
`clear_session`) the operations do not fail with a NotUnlockedError — no
such error exists in the code: `list_passwords` returns the titles
normally, `delete_password` deletes and returns `True`, and
`get_password` returns `None` through the caught-exception path. -/
theorem C10_closed_vault_ops_succeed :
    dbListPasswords closedSt = ["bank"] ∧
    (dbDeletePassword closedSt "bank").2 = true ∧
    dbGetPassword closedSt "bank" = none ∧
    getPasswordOutcome closedSt.encryptionKey closedSt.store "bank" =
      .decryptError :=
  ⟨rfl, rfl, rfl, rfl⟩

/-- C10 amended: after `clear_session` scrubs the key material, no
operation reports an unlock error: `list_passwords` and `delete_password`
operate on storage exactly as on an unlocked vault, `get_password` always
returns `None` (a missing key raises inside the handler that prints a
decryption error and returns `None`), and only `add_password` raises — an
uncaught AttributeError, not a NotUnlockedError. -/
theorem C10_closed_vault_behaviour (st : DbState) (nonce : Nat)
    (title password : String) :
    dbListPasswords (clearSession st) = listPasswords st.store ∧
    (dbDeletePassword (clearSession st) title).1.store =
      (deletePassword st.store title).1 ∧
    (dbDeletePassword (clearSession st) title).2 =
      (deletePassword st.store title).2 ∧
    dbGetPassword (clearSession st) title = none ∧
    dbAddPassword (clearSession st) nonce title password = none := by
  refine ⟨rfl, rfl, rfl, ?_, rfl⟩
  unfold dbGetPassword clearSession getPassword getPasswordOutcome
  cases st.store.find? (fun r => r.title = title) <;> rfl

end EzPass
